import Mathlib

/-!
Verification of the Atomic Red Team markdown/JSON converter
(`src/data_processing/md_to_json.py` and `src/data_processing/json_to_md.py`).

The Python code is shallowly embedded: Python strings become `List Char`,
Python dicts become insertion-ordered association lists, the concrete
regular expressions used by the parser are compiled, pattern by pattern,
into backtracking matcher combinators whose result ordering mirrors the
backtracking order of Python's `re` engine (leftmost match, greedy
quantifiers try longest first, lazy quantifiers shortest first), and
fallible code returns `Except`.  ASCII inputs are assumed throughout:
character classes such as `\s` and `\d` are modelled by their ASCII
fragments, which agree with Python on all ASCII text.
-/

set_option maxHeartbeats 2000000
set_option maxRecDepth 100000

namespace ARTConv

/-- Characters of a Python `str`, represented as a list of characters. -/
abbrev Str := List Char

/-- View a Lean string literal as the character-list representation. -/
def str (s : String) : Str := s.data

/-- Python whitespace (`\s`, `str.strip`), ASCII fragment. -/
def isSpacePy (c : Char) : Bool :=
  c == ' ' || c == '\t' || c == '\n' || c == '\r' || c == '\x0b' || c == '\x0c'

/-- Python `\d`, ASCII fragment. -/
def isDigitPy (c : Char) : Bool := '0' ≤ c && c ≤ '9'

/-- The character class `[0-9a-fA-F-]` of the auto_generated_guid pattern. -/
def isHexDash (c : Char) : Bool :=
  isDigitPy c || ('a' ≤ c && c ≤ 'f') || ('A' ≤ c && c ≤ 'F') || c == '-'

/-- The character class `[a-zA-Z0-9_-]` of the code-fence language tag. -/
def isFenceLangChar (c : Char) : Bool :=
  isDigitPy c || ('a' ≤ c && c ≤ 'z') || ('A' ≤ c && c ≤ 'Z') || c == '_' || c == '-'

/-- Line-break characters recognized by Python `str.splitlines`, ASCII fragment. -/
def isLineBreakPy (c : Char) : Bool :=
  c == '\n' || c == '\r' || c == '\x0b' || c == '\x0c' ||
  c == '\x1c' || c == '\x1d' || c == '\x1e'

/-- Python `str.lstrip()`. -/
def pyStripLeft (s : Str) : Str := s.dropWhile (fun c => isSpacePy c)

/-- Python `str.rstrip()`. -/
def pyStripRight (s : Str) : Str := (s.reverse.dropWhile (fun c => isSpacePy c)).reverse

/-- Python `str.strip()`. -/
def pyStrip (s : Str) : Str := pyStripRight (pyStripLeft s)

/-- Python `str.strip("|")`: remove all leading and trailing pipe characters. -/
def pyStripPipes (s : Str) : Str :=
  ((s.dropWhile (fun c => c == '|')).reverse.dropWhile (fun c => c == '|')).reverse

/-- Python `str.lower()`, ASCII fragment. -/
def pyLower (s : Str) : Str := s.map Char.toLower

/-- Python `str.upper()`, ASCII fragment. -/
def pyUpper (s : Str) : Str := s.map Char.toUpper

/-- Python `str.capitalize()`, ASCII fragment: first character upper, rest lower. -/
def pyCapitalize (s : Str) : Str :=
  match s with
  | [] => []
  | c :: t => Char.toUpper c :: pyLower t

/-- Python `str.split(sep)` for a one-character separator. -/
def pySplit (sep : Char) : Str → List Str
  | [] => [[]]
  | c :: t =>
    if c == sep then [] :: pySplit sep t
    else
      match pySplit sep t with
      | h :: r => (c :: h) :: r
      | [] => [[c]]

/-- Python `str.startswith(p)` (first argument is the pattern). -/
def pyStartsWith : Str → Str → Bool
  | [], _ => true
  | _, [] => false
  | p :: ps, c :: cs => p == c && pyStartsWith ps cs

/-- Python `str.splitlines()` (ASCII line breaks; `\r\n` counts as one break). -/
def pySplitLines : Str → List Str
  | [] => []
  | '\r' :: '\n' :: r => [] :: pySplitLines r
  | c :: t =>
    if isLineBreakPy c then [] :: pySplitLines t
    else
      match pySplitLines t with
      | h :: r => (c :: h) :: r
      | [] => [[c]]

/-- `section_text.splitlines()[0]`: the first line of a non-empty text. -/
def firstLine (s : Str) : Str := s.takeWhile (fun c => ¬ isLineBreakPy c)

def isHexDigitPy (c : Char) : Bool :=
  isDigitPy c || ('a' ≤ c && c ≤ 'f') || ('A' ≤ c && c ≤ 'F')

def hexVal (c : Char) : Nat :=
  if isDigitPy c then c.toNat - '0'.toNat
  else if 'a' ≤ c && c ≤ 'f' then c.toNat - 'a'.toNat + 10
  else if 'A' ≤ c && c ≤ 'F' then c.toNat - 'A'.toNat + 10
  else 0

/-- One HTML character reference following a `&`, modelling the fragment of
Python's `html.unescape` this converter relies on: decimal and hexadecimal
numeric references and the common named references; every other sequence is
left untouched.  Returns the decoded character and the remaining input. -/
def charRef (s : Str) : Option (Char × Str) :=
  if pyStartsWith (str "#x") s || pyStartsWith (str "#X") s then
    let ds := (s.drop 2).takeWhile isHexDigitPy
    let rest := (s.drop 2).dropWhile isHexDigitPy
    match ds, rest with
    | [], _ => none
    | _ :: _, ';' :: r =>
      some (Char.ofNat (min (ds.foldl (fun a c => a * 16 + hexVal c) 0) 1114111), r)
    | _, _ => none
  else if pyStartsWith (str "#") s then
    let ds := (s.drop 1).takeWhile isDigitPy
    let rest := (s.drop 1).dropWhile isDigitPy
    match ds, rest with
    | [], _ => none
    | _ :: _, ';' :: r =>
      some (Char.ofNat (min (ds.foldl (fun a c => a * 10 + hexVal c) 0) 1114111), r)
    | _, _ => none
  else if pyStartsWith (str "amp;") s then some ('&', s.drop 4)
  else if pyStartsWith (str "lt;") s then some ('<', s.drop 3)
  else if pyStartsWith (str "gt;") s then some ('>', s.drop 3)
  else if pyStartsWith (str "quot;") s then some ('"', s.drop 5)
  else if pyStartsWith (str "apos;") s then some ('\'', s.drop 5)
  else none

/-- Worker for `unescape`: the fuel bounds the recursion depth; every step
consumes at least one character, so fuel equal to the input length is enough. -/
def unescapeGo : Nat → Str → Str
  | 0, s => s
  | _ + 1, [] => []
  | f + 1, '&' :: rest =>
    (match charRef rest with
     | some (c, r) => c :: unescapeGo f r
     | none => '&' :: unescapeGo f rest)
  | f + 1, c :: rest => c :: unescapeGo f rest

/-- `html.unescape` (on the fragment this converter produces and consumes). -/
def unescape (s : Str) : Str := unescapeGo s.length s

/-- A backtracking matcher over a suffix of the subject string: the list of
possible (captured value, remaining suffix) outcomes, ordered the way
Python's backtracking `re` engine tries them. -/
def M (γ : Type) : Type := Str → List (γ × Str)

def mPure {γ : Type} (a : γ) : M γ := fun s => [(a, s)]

def mBind {α β : Type} (p : M α) (f : α → M β) : M β :=
  fun s => (p s).flatMap fun x => f x.1 x.2

def mMap {α β : Type} (g : α → β) (p : M α) : M β :=
  fun s => (p s).map fun x => (g x.1, x.2)

/-- Match one character of the class `p`. -/
def mChar (p : Char → Bool) : M Char := fun s =>
  match s with
  | c :: t => if p c then [(c, t)] else []
  | [] => []

/-- Match a literal string. -/
def mLit (l : Str) : M Unit := fun s =>
  if pyStartsWith l s then [((), s.drop l.length)] else []

/-- Greedy `p*` over a one-character class: longest take first. -/
def mManyGreedy (p : Char → Bool) : M Str := fun s =>
  let run := s.takeWhile p
  let rest := s.dropWhile p
  (List.range (run.length + 1)).reverse.map fun k => (run.take k, run.drop k ++ rest)

/-- Greedy `p+` over a one-character class. -/
def mMany1Greedy (p : Char → Bool) : M Str := fun s =>
  let run := s.takeWhile p
  let rest := s.dropWhile p
  (List.range run.length).reverse.map fun k => (run.take (k + 1), run.drop (k + 1) ++ rest)

/-- Lazy `p+?` over a one-character class: shortest take first. -/
def mMany1Lazy (p : Char → Bool) : M Str := fun s =>
  let run := s.takeWhile p
  let rest := s.dropWhile p
  (List.range run.length).map fun k => (run.take (k + 1), run.drop (k + 1) ++ rest)

/-- Greedy `(...)?`: try matching first, then the empty alternative. -/
def mOptGreedy {α : Type} (p : M α) : M (Option α) := fun s =>
  ((p s).map fun x => (some x.1, x.2)) ++ [(none, s)]

/-- `$` under MULTILINE: end of string or just before a newline (zero-width). -/
def mEol : M Unit := fun s =>
  match s with
  | [] => [((), [])]
  | '\n' :: _ => [((), s)]
  | _ => []

/-- `$` without MULTILINE: end of string or just before a final newline. -/
def mEos : M Unit := fun s =>
  match s with
  | [] => [((), [])]
  | ['\n'] => [((), s)]
  | _ => []

/-- `p{n}` over a one-character class. -/
def mCount (n : Nat) (p : Char → Bool) : M Str := fun s =>
  let t := s.take n
  if t.length == n && t.all p then [(t, s.drop n)] else []

/-- Wrap a matcher so that its value becomes the substring it consumed
(a regex capture group). -/
def mCapture {α : Type} (p : M α) : M Str := fun s =>
  (p s).map fun x => (s.take (s.length - x.2.length), x.2)

/-- Greedy `(...)*` over a compound matcher, with fuel; an iteration that
consumes nothing stops the repetition.  More iterations are tried first. -/
def mManyComp (p : M Unit) : Nat → M Unit
  | 0 => mPure ()
  | n + 1 => fun s =>
    ((p s).flatMap fun x =>
      if x.2.length < s.length then mManyComp p n x.2 else [((), x.2)]) ++ [((), s)]

/-- Greedy `(...)+` over a compound matcher. -/
def mMany1Comp (p : M Unit) : M Unit := fun s =>
  mBind p (fun _ => mManyComp p s.length) s

/-- Run a matcher at the current position: the first outcome in backtracking
order wins.  Returns the value and the number of characters consumed. -/
def runFirst {γ : Type} (m : M γ) (s : Str) : Option (γ × Nat) :=
  match m s with
  | [] => none
  | x :: _ => some (x.1, s.length - x.2.length)

/-- `re.search` for a pattern anchored by a MULTILINE `^`: try every
line-start position left to right; position 0 of the searched string counts
as a line start (searching a slice re-anchors `^`, exactly as in Python).
Returns (match start, match end, captured value). -/
def searchLS {γ : Type} (m : M γ) (atLS : Bool) (i : Nat) (s : Str) :
    Option (Nat × Nat × γ) :=
  match (if atLS then runFirst m s else none) with
  | some x => some (i, i + x.2, x.1)
  | none =>
    match s with
    | [] => none
    | c :: t => searchLS m (c == '\n') (i + 1) t

def reSearch {γ : Type} (m : M γ) (s : Str) : Option (Nat × Nat × γ) :=
  searchLS m true 0 s

/-- `re.search` for an unanchored pattern: try every position left to right. -/
def searchAnyAux {γ : Type} (m : M γ) (i : Nat) (s : Str) : Option (Nat × Nat × γ) :=
  match runFirst m s with
  | some x => some (i, i + x.2, x.1)
  | none =>
    match s with
    | [] => none
    | _ :: t => searchAnyAux m (i + 1) t

def searchAny {γ : Type} (m : M γ) (s : Str) : Option (Nat × Nat × γ) :=
  searchAnyAux m 0 s

/-- `re.match`: the pattern must match at position 0. -/
def reMatch0 {γ : Type} (m : M γ) (s : Str) : Option γ :=
  (runFirst m s).map fun x => x.1

/-- `re.finditer` worker: earliest match at or after the current position,
then continue scanning from the end of that match. -/
def finditerGo {γ : Type} (m : M γ) : Nat → Bool → Nat → Str → List (Nat × Nat × γ)
  | 0, _, _, _ => []
  | fuel + 1, atLS, i, s =>
    match (if atLS then runFirst m s else none) with
    | some x =>
      let matched := s.take x.2
      let rest := s.drop x.2
      (i, i + x.2, x.1) ::
        (if x.2 = 0 then []
         else finditerGo m fuel (matched.getLastD 'x' == '\n') (i + x.2) rest)
    | none =>
      match s with
      | [] => []
      | c :: t => finditerGo m fuel (c == '\n') (i + 1) t

def finditer {γ : Type} (m : M γ) (s : Str) : List (Nat × Nat × γ) :=
  finditerGo m (s.length + 1) true 0 s

/-!  The concrete patterns of `md_to_json.py`, compiled matcher by matcher.
Each definition mirrors one regular expression of the source; the `^` anchor
is supplied by `reSearch`, `$` by `mEol` (MULTILINE) or `mEos` (plain). -/

/-- `[Tt]\d{4}(?:\.\d{3})?` — the technique id inside the header pattern. -/
def techIdM : M Unit :=
  mBind (mChar (fun c => c == 'T' || c == 't')) fun _ =>
  mBind (mCount 4 isDigitPy) fun _ =>
  mBind (mOptGreedy (mBind (mChar (fun c => c == '.')) fun _ => mCount 3 isDigitPy)) fun _ =>
  mPure ()

/-- `^#\s+([Tt]\d{4}(?:\.\d{3})?)\s*-\s*(.+?)\s*$` (`parse_technique_header`). -/
def headerM : M (Str × Str) :=
  mBind (mChar (fun c => c == '#')) fun _ =>
  mBind (mMany1Greedy isSpacePy) fun _ =>
  mBind (mCapture techIdM) fun g1 =>
  mBind (mManyGreedy isSpacePy) fun _ =>
  mBind (mChar (fun c => c == '-')) fun _ =>
  mBind (mManyGreedy isSpacePy) fun _ =>
  mBind (mCapture (mMany1Lazy (fun c => ¬ c == '\n'))) fun g2 =>
  mBind (mManyGreedy isSpacePy) fun _ =>
  mBind mEol fun _ =>
  mPure (g1, g2)

/-- `^##\s+Atomic Test\s+#\d+\s+-\s+.+$` (`split_atomic_tests_sections`). -/
def boundaryM : M Unit :=
  mBind (mLit (str "##")) fun _ =>
  mBind (mMany1Greedy isSpacePy) fun _ =>
  mBind (mLit (str "Atomic Test")) fun _ =>
  mBind (mMany1Greedy isSpacePy) fun _ =>
  mBind (mLit (str "#")) fun _ =>
  mBind (mMany1Greedy isDigitPy) fun _ =>
  mBind (mMany1Greedy isSpacePy) fun _ =>
  mBind (mLit (str "-")) fun _ =>
  mBind (mMany1Greedy isSpacePy) fun _ =>
  mBind (mMany1Greedy (fun c => ¬ c == '\n')) fun _ =>
  mBind mEol fun _ => mPure ()

/-- `^##\s+Atomic Test\s+#\d+\s+-\s+(.+)$` (title line, via `re.match`). -/
def titleM : M Str :=
  mBind (mLit (str "##")) fun _ =>
  mBind (mMany1Greedy isSpacePy) fun _ =>
  mBind (mLit (str "Atomic Test")) fun _ =>
  mBind (mMany1Greedy isSpacePy) fun _ =>
  mBind (mLit (str "#")) fun _ =>
  mBind (mMany1Greedy isDigitPy) fun _ =>
  mBind (mMany1Greedy isSpacePy) fun _ =>
  mBind (mLit (str "-")) fun _ =>
  mBind (mMany1Greedy isSpacePy) fun _ =>
  mBind (mCapture (mMany1Greedy (fun c => ¬ c == '\n'))) fun g =>
  mBind mEos fun _ => mPure g

/-- `^\*\*Supported Platforms:\*\*\s*(.+?)\s*$` (`parse_supported_platforms`). -/
def platformsM : M Str :=
  mBind (mLit (str "**Supported Platforms:**")) fun _ =>
  mBind (mManyGreedy isSpacePy) fun _ =>
  mBind (mCapture (mMany1Lazy (fun c => ¬ c == '\n'))) fun g =>
  mBind (mManyGreedy isSpacePy) fun _ =>
  mBind mEol fun _ => mPure g

/-- `^\*\*auto_generated_guid:\*\*\s*([0-9a-fA-F-]{36})\s*$`
(`parse_auto_generated_guid`). -/
def guidM : M Str :=
  mBind (mLit (str "**auto_generated_guid:**")) fun _ =>
  mBind (mManyGreedy isSpacePy) fun _ =>
  mBind (mCount 36 isHexDash) fun g =>
  mBind (mManyGreedy isSpacePy) fun _ =>
  mBind mEol fun _ => mPure g

/-- `^####\s+Inputs:` (`parse_inputs_table`, heading probe). -/
def inputsHeadM : M Unit :=
  mBind (mLit (str "####")) fun _ =>
  mBind (mMany1Greedy isSpacePy) fun _ =>
  mBind (mLit (str "Inputs:")) fun _ => mPure ()

/-- `\s*\n` — trailing whitespace up to and including a newline. -/
def wsThenNl : M Unit :=
  mBind (mManyGreedy isSpacePy) fun _ =>
  mBind (mChar (fun c => c == '\n')) fun _ => mPure ()

/-- `\|.+\|\s*\n` — the table header row. -/
def tableHeaderRowM : M Unit :=
  mBind (mChar (fun c => c == '|')) fun _ =>
  mBind (mMany1Greedy (fun c => ¬ c == '\n')) fun _ =>
  mBind (mChar (fun c => c == '|')) fun _ => wsThenNl

/-- `[-\s|]` — the separator-row character class. -/
def isSepChar (c : Char) : Bool := c == '-' || isSpacePy c || c == '|'

/-- `\|[-\s|]+\|\s*\n` — the table separator row. -/
def tableSepRowM : M Unit :=
  mBind (mChar (fun c => c == '|')) fun _ =>
  mBind (mMany1Greedy isSepChar) fun _ =>
  mBind (mChar (fun c => c == '|')) fun _ => wsThenNl

/-- `\|.*\|\s*\n` — one table data row. -/
def tableBodyRowM : M Unit :=
  mBind (mChar (fun c => c == '|')) fun _ =>
  mBind (mManyGreedy (fun c => ¬ c == '\n')) fun _ =>
  mBind (mChar (fun c => c == '|')) fun _ => wsThenNl

/-- `^####\s+Inputs:\s*\n(?P<header>\|.+\|\s*\n\|[-\s|]+\|\s*\n)(?P<body>(?:\|.*\|\s*\n)+)`
(`parse_inputs_table`); the value is the `body` group. -/
def inputsTableM : M Str :=
  mBind (mLit (str "####")) fun _ =>
  mBind (mMany1Greedy isSpacePy) fun _ =>
  mBind (mLit (str "Inputs:")) fun _ =>
  mBind wsThenNl fun _ =>
  mBind tableHeaderRowM fun _ =>
  mBind tableSepRowM fun _ =>
  mBind (mCapture (mMany1Comp tableBodyRowM)) fun body =>
  mPure body

/-- Code-fence opener ```` ```([a-zA-Z0-9_-]*)\s*\n ```` (`parse_next_code_block`,
unanchored); the value is the language tag. -/
def fenceStartM : M Str :=
  mBind (mLit (str "```")) fun _ =>
  mBind (mCapture (mManyGreedy isFenceLangChar)) fun lang =>
  mBind (mManyGreedy isSpacePy) fun _ =>
  mBind (mChar (fun c => c == '\n')) fun _ =>
  mPure lang

/-- Code-fence closer `^\s*```` ``` ```` (`parse_next_code_block`). -/
def fenceEndM : M Unit :=
  mBind (mManyGreedy isSpacePy) fun _ =>
  mBind (mLit (str "```")) fun _ => mPure ()

/-- `Elevation Required.*` — the optional elevation marker. -/
def elevM : M Unit :=
  mBind (mLit (str "Elevation Required")) fun _ =>
  mBind (mManyGreedy (fun c => ¬ c == '\n')) fun _ => mPure ()

/-- `^####\s+Run it with these steps!\s*(?P<elev>Elevation Required.*)?$`
(`parse_executor_block`, manual branch); the value records `elev is not None`. -/
def manualHeadM : M Bool :=
  mBind (mLit (str "####")) fun _ =>
  mBind (mMany1Greedy isSpacePy) fun _ =>
  mBind (mLit (str "Run it with these steps!")) fun _ =>
  mBind (mManyGreedy isSpacePy) fun _ =>
  mBind (mOptGreedy elevM) fun elev =>
  mBind mEol fun _ => mPure elev.isSome

/-- `^####\s+Run it with these steps!.*$` (`extract_between` start, manual steps). -/
def manualStartM : M Unit :=
  mBind (mLit (str "####")) fun _ =>
  mBind (mMany1Greedy isSpacePy) fun _ =>
  mBind (mLit (str "Run it with these steps!")) fun _ =>
  mBind (mManyGreedy (fun c => ¬ c == '\n')) fun _ =>
  mBind mEol fun _ => mPure ()

/-- Command heading
`^####\s+Attack Commands:\s+Run with\s+`(?P<exec>[^`]+)`!\s*(?P<elev>Elevation Required.*)?$`
(`parse_executor_block`); the value is (exec group, elev present). -/
def cmdHeadM : M (Str × Bool) :=
  mBind (mLit (str "####")) fun _ =>
  mBind (mMany1Greedy isSpacePy) fun _ =>
  mBind (mLit (str "Attack Commands:")) fun _ =>
  mBind (mMany1Greedy isSpacePy) fun _ =>
  mBind (mLit (str "Run with")) fun _ =>
  mBind (mMany1Greedy isSpacePy) fun _ =>
  mBind (mChar (fun c => c == '`')) fun _ =>
  mBind (mCapture (mMany1Greedy (fun c => ¬ c == '`'))) fun ex =>
  mBind (mChar (fun c => c == '`')) fun _ =>
  mBind (mChar (fun c => c == '!')) fun _ =>
  mBind (mManyGreedy isSpacePy) fun _ =>
  mBind (mOptGreedy elevM) fun elev =>
  mBind mEol fun _ => mPure (ex, elev.isSome)

/-- `^####\s+Cleanup Commands:\s*$` (`parse_executor_block`). -/
def cleanupHeadM : M Unit :=
  mBind (mLit (str "####")) fun _ =>
  mBind (mMany1Greedy isSpacePy) fun _ =>
  mBind (mLit (str "Cleanup Commands:")) fun _ =>
  mBind (mManyGreedy isSpacePy) fun _ =>
  mBind mEol fun _ => mPure ()

/-- `^####\s+Dependencies:\s+Run with\s+`(?P<dep_exec>[^`]+)`!` (`parse_dependencies`). -/
def depHeadM : M Str :=
  mBind (mLit (str "####")) fun _ =>
  mBind (mMany1Greedy isSpacePy) fun _ =>
  mBind (mLit (str "Dependencies:")) fun _ =>
  mBind (mMany1Greedy isSpacePy) fun _ =>
  mBind (mLit (str "Run with")) fun _ =>
  mBind (mMany1Greedy isSpacePy) fun _ =>
  mBind (mChar (fun c => c == '`')) fun _ =>
  mBind (mCapture (mMany1Greedy (fun c => ¬ c == '`'))) fun ex =>
  mBind (mChar (fun c => c == '`')) fun _ =>
  mBind (mChar (fun c => c == '!')) fun _ => mPure ex

/-- `^#####\s+Description:\s*(?P<desc>.+)$` (`parse_dependencies`). -/
def depDescM : M Str :=
  mBind (mLit (str "#####")) fun _ =>
  mBind (mMany1Greedy isSpacePy) fun _ =>
  mBind (mLit (str "Description:")) fun _ =>
  mBind (mManyGreedy isSpacePy) fun _ =>
  mBind (mCapture (mMany1Greedy (fun c => ¬ c == '\n'))) fun d =>
  mBind mEol fun _ => mPure d

/-- `^#####\s+Check Prereq Commands:\s*$` (`parse_dependencies`). -/
def checkPrereqM : M Unit :=
  mBind (mLit (str "#####")) fun _ =>
  mBind (mMany1Greedy isSpacePy) fun _ =>
  mBind (mLit (str "Check Prereq Commands:")) fun _ =>
  mBind (mManyGreedy isSpacePy) fun _ =>
  mBind mEol fun _ => mPure ()

/-- `^#####\s+Get Prereq Commands:\s*$` (`parse_dependencies`). -/
def getPrereqM : M Unit :=
  mBind (mLit (str "#####")) fun _ =>
  mBind (mMany1Greedy isSpacePy) fun _ =>
  mBind (mLit (str "Get Prereq Commands:")) fun _ =>
  mBind (mManyGreedy isSpacePy) fun _ =>
  mBind mEol fun _ => mPure ()

/-- `^####\s` — an end marker used by `extract_between`. -/
def hash4SpM : M Unit :=
  mBind (mLit (str "####")) fun _ => mBind (mChar isSpacePy) fun _ => mPure ()

/-- `^##\s` — an end marker used by `extract_between`. -/
def hash2SpM : M Unit :=
  mBind (mLit (str "##")) fun _ => mBind (mChar isSpacePy) fun _ => mPure ()

/-- `^\*\*Supported Platforms:\*\*` — an end marker used by `extract_between`. -/
def platLineStartM : M Unit :=
  mBind (mLit (str "**Supported Platforms:**")) fun _ => mPure ()

/-!  The data model: Python/JSON values and insertion-ordered dicts. -/

/-- Python/JSON-like values as built and consumed by the two scripts.
Objects are insertion-ordered association lists, like Python dicts. -/
inductive Val : Type where
  | str (s : Str)
  | bool (b : Bool)
  | null
  | list (xs : List Val)
  | obj (fields : List (Str × Val))

instance : Inhabited Val := ⟨Val.null⟩

/-- `d.get(k)` on an insertion-ordered dict. -/
def pyGet {β : Type} : List (Str × β) → Str → Option β
  | [], _ => none
  | (k, v) :: t, key => if k = key then some v else pyGet t key

/-- `d[k] = v` on an insertion-ordered dict: overwrite the value in place if
the key is present, else append the pair at the end. -/
def pyUpdate {β : Type} : List (Str × β) → Str → β → List (Str × β)
  | [], key, v => [(key, v)]
  | (k, w) :: t, key, v => if k = key then (key, v) :: t else (k, w) :: pyUpdate t key v

/-- Field access on an object value. -/
def Val.get : Val → Str → Option Val
  | .obj f, k => pyGet f k
  | _, _ => none

/-- `PLATFORM_REVERSE_MAP` from `md_to_json.py`. -/
def PLATFORM_REVERSE_MAP : List (Str × Str) :=
  [ (str "Windows", str "windows"), (str "Linux", str "linux"), (str "macOS", str "macos"),
    (str "Office 365", str "office-365"), (str "Azure AD", str "azure-ad"),
    (str "IaaS", str "iaas"), (str "SaaS", str "saas"), (str "AWS", str "iaas:aws"),
    (str "Azure", str "iaas:azure"), (str "GCP", str "iaas:gcp"),
    (str "Google Workspace", str "google-workspace"),
    (str "Containers", str "containers"), (str "ESXi", str "esxi") ]

/-!  `md_to_json.py`, function by function. -/

/-- `parse_technique_header` (the raised `ValueError` becomes `Except.error`). -/
def parse_technique_header (text : Str) : Except Str (Str × Str) :=
  match reSearch headerM text with
  | none => .error (str "Unable to find technique header in markdown.")
  | some (_, _, g) => .ok (pyUpper g.1, pyStrip g.2)

/-- The span construction of `split_atomic_tests_sections`: each section runs
from its boundary match start to the next boundary match start (or the end of
the document), paired with its first line. -/
def sectionsOf (text : Str) : List (Nat × Nat × Unit) → List (Str × Str)
  | [] => []
  | (st, _, _) :: rest =>
    let endPos := match rest with
      | (st2, _, _) :: _ => st2
      | [] => text.length
    let sec := (text.drop st).take (endPos - st)
    (firstLine sec, sec) :: sectionsOf text rest

/-- `split_atomic_tests_sections`. -/
def split_atomic_tests_sections (text : Str) : List (Str × Str) :=
  sectionsOf text (finditer boundaryM text)

/-- `extract_between`: the text after the first `start` match up to the
earliest match of any `end` pattern (or the end of the section), stripped;
also the match start and the end position (`(-1, -1)` when `start` is absent). -/
def extract_between (s : Str) (startM : M Unit) (endMs : List (M Unit)) :
    Option Str × Int × Int :=
  match reSearch startM s with
  | none => (none, -1, -1)
  | some (st, en, _) =>
    let rest := s.drop en
    let endPositions := endMs.filterMap fun em => (reSearch em rest).map fun m => en + m.1
    let endPos := endPositions.foldr min s.length
    let content := (s.drop en).take (endPos - en)
    (some (pyStrip content), Int.ofNat st, Int.ofNat endPos)

/-- One converted argument record `{"arg_name": name, **meta}`
(from `restructure_input_arguments_in_technique`). -/
def argItem (nm : Str × Val) : Val :=
  match nm.2 with
  | .obj meta =>
    .obj (meta.foldl (fun acc kv => pyUpdate acc kv.1 kv.2) [(str "arg_name", .str nm.1)])
  | _ => .obj [(str "arg_name", .str nm.1)]

/-- The per-test body of `restructure_input_arguments_in_technique`: a
dict-shaped `input_arguments` becomes a list of records, `None`/missing
becomes `[]`, and any other shape (already a list) is left alone.  (A
non-dict test value is outside the data model and is left unchanged.) -/
def restructTest (t : Val) : Val :=
  match t with
  | .obj f =>
    match pyGet f (str "input_arguments") with
    | some (.obj argsMap) =>
      .obj (pyUpdate f (str "input_arguments") (.list (argsMap.map argItem)))
    | some .null => .obj (pyUpdate f (str "input_arguments") (.list []))
    | none => .obj (pyUpdate f (str "input_arguments") (.list []))
    | _ => t
  | _ => t

/-- `restructure_input_arguments_in_technique`. -/
def restructure_input_arguments_in_technique (technique : Val) : Val :=
  match technique with
  | .obj fields =>
    match pyGet fields (str "atomic_tests") with
    | some (.list ts) =>
      .obj (pyUpdate fields (str "atomic_tests") (.list (ts.map restructTest)))
    | _ => technique
  | _ => technique

/-- The platform-mapping loop of `parse_supported_platforms`. -/
def mapPlatforms : List Str → List Str
  | [] => []
  | p :: rest =>
    if p = [] then mapPlatforms rest
    else
      match pyGet PLATFORM_REVERSE_MAP p with
      | some tok => tok :: mapPlatforms rest
      | none => pyLower p :: mapPlatforms rest

/-- `parse_supported_platforms`. -/
def parse_supported_platforms (s : Str) : List Str :=
  match reSearch platformsM s with
  | none => []
  | some (_, _, g) => mapPlatforms ((pySplit ',' (pyStrip g)).map pyStrip)

/-- `parse_auto_generated_guid`. -/
def parse_auto_generated_guid (s : Str) : Option Str :=
  (reSearch guidM s).map fun m => m.2.2

/-- One parsed Inputs-table row value (the `{description, type, default}` dict). -/
structure ArgEntry where
  description : Str
  type : Str
  default : Option Str
deriving DecidableEq

instance : Inhabited ArgEntry := ⟨⟨[], [], none⟩⟩

/-- The cells of one table line: strip the line, drop the border pipes, split
on `|`, strip each cell (`parse_inputs_table` loop). -/
def rowCells (line : Str) : List Str :=
  (pySplit '|' (pyStripPipes (pyStrip line))).map pyStrip

/-- The body of the `parse_inputs_table` row loop; `none` mirrors `continue`.
(The `if default.endswith("\\")` branch of the source is a `pass` and adds
nothing.) -/
def parseRow (line : Str) : Option (Str × ArgEntry) :=
  if ¬ pyStartsWith (str "|") (pyStrip line) then none
  else
    match rowCells line with
    | name :: desc :: typ :: dflt :: _ =>
      let name := unescape name
      let desc := unescape desc
      let typ := unescape typ
      let dflt := unescape dflt
      some (name, ⟨desc, typ, if dflt = [] then none else some dflt⟩)
    | _ => none

/-- The `args` dict accumulated over the body rows (`args[name] = {...}`). -/
def foldRows (lines : List Str) : List (Str × ArgEntry) :=
  lines.foldl (fun acc line =>
    match parseRow line with
    | none => acc
    | some (n, e) => pyUpdate acc n e) []

/-- `parse_inputs_table`. -/
def parse_inputs_table (s : Str) : List (Str × ArgEntry) :=
  if (reSearch inputsHeadM s).isNone then []
  else
    match reSearch inputsTableM s with
    | none => []
    | some (_, _, body) => foldRows (pySplitLines body)

/-- The `CodeBlock` dataclass. -/
structure CodeBlock where
  language : Str
  content : Str
deriving DecidableEq

/-- `parse_next_code_block`. -/
def parse_next_code_block (after_index : Nat) (s : Str) : Option CodeBlock :=
  match searchAny fenceStartM (s.drop after_index) with
  | none => none
  | some (_, en, lang) =>
    let code_start := after_index + en
    match reSearch fenceEndM (s.drop code_start) with
    | none => none
    | some (st2, _, _) =>
      let content := (s.drop code_start).take st2
      some ⟨lang, unescape (pyStrip content)⟩

/-- `parse_executor_block`, returning `(executor dict, last parsed index)`;
a raised `ValueError` becomes `Except.error`. -/
def parse_executor_block (s : Str) : Except Str (Val × Int) :=
  match reSearch manualHeadM s with
  | some (_, _, elev) =>
    let r := extract_between s manualStartM [hash4SpM, hash2SpM]
    .ok (.obj [(str "name", .str (str "manual")),
               (str "elevation_required", .bool elev),
               (str "steps", .str (r.1.getD []))], r.2.2)
  | none =>
    match reSearch cmdHeadM s with
    | none => .error (str "Executor heading not found in test section.")
    | some (_, en, ex, elev) =>
      let exec_name_display := pyStrip ex
      match parse_next_code_block en s with
      | none => .error (str "Command code block not found after executor heading.")
      | some command_block =>
        let cleanupInfo : Option Str × Int :=
          match reSearch cleanupHeadM (s.drop en) with
          | none => (none, Int.ofNat en)
          | some (cst, cen, _) =>
            match parse_next_code_block (en + cst) s with
            | some cb => (some cb.content, Int.ofNat (en + cst + cb.content.length))
            | none => (none, Int.ofNat (en + cen))
        let exec_name :=
          if pyLower exec_name_display = str "cmd" then str "command_prompt"
          else exec_name_display
        let baseFields := [(str "name", .str exec_name),
                           (str "elevation_required", .bool elev),
                           (str "command", .str command_block.content)]
        let fields :=
          match cleanupInfo.1 with
          | some c => if c ≠ [] then baseFields ++ [(str "cleanup_command", .str c)] else baseFields
          | none => baseFields
        .ok (.obj fields, cleanupInfo.2)

/-- One dependency entry of `parse_dependencies`. -/
def depEntry (desc : Str) (check_block get_block : Option CodeBlock) : Val :=
  .obj [(str "description", .str (unescape desc)),
        (str "prereq_command", .str (match check_block with | some b => b.content | none => [])),
        (str "get_prereq_command", match get_block with | some b => .str b.content | none => .null)]

/-- The scanning loop of `parse_dependencies`; the fuel bounds the number of
iterations (every iteration advances the position by at least one character,
so fuel `s.length + 1` is enough). -/
def depsLoop (s : Str) : Nat → Nat → List Val
  | 0, _ => []
  | fuel + 1, pos =>
    match reSearch depDescM (s.drop pos) with
    | none => []
    | some (dst, _, descRaw) =>
      let desc_abs_start := pos + dst
      let desc_text := pyStrip descRaw
      match reSearch checkPrereqM (s.drop desc_abs_start) with
      | none => []
      | some (_, cen, _) =>
        let check_block := parse_next_code_block (desc_abs_start + cen) s
        let mget := reSearch getPrereqM (s.drop (desc_abs_start + cen))
        let get_block :=
          match mget with
          | none => none
          | some (_, gen, _) => parse_next_code_block (desc_abs_start + cen + gen) s
        let advance :=
          match mget, get_block with
          | some (_, gen, _), some _ => desc_abs_start + cen + gen
          | _, _ => desc_abs_start + cen
        depEntry desc_text check_block get_block :: depsLoop s fuel (advance + 1)

/-- `parse_dependencies`: `(dependency executor override, dependency list)`. -/
def parse_dependencies (s : Str) (test_executor_name : Str) : Option Str × List Val :=
  match reSearch depHeadM s with
  | none => (none, [])
  | some (_, en, depExecRaw) =>
    let printed := pyStrip depExecRaw
    (if printed ≠ test_executor_name then some printed else none,
     depsLoop s (s.length + 1) en)

/-- The JSON object stored for one parsed Inputs-table entry. -/
def argEntryVal (e : ArgEntry) : Val :=
  .obj [(str "description", .str e.description),
        (str "type", .str e.type),
        (str "default", match e.default with | some d => .str d | none => .null)]

/-- The `input_arguments` mapping as stored on a parsed test. -/
def argsVal (args : List (Str × ArgEntry)) : Val :=
  .obj (args.map fun nv => (nv.1, argEntryVal nv.2))

/-- `executor["name"]` of a constructed executor dict. -/
def execNameOf (e : Val) : Str :=
  match e.get (str "name") with
  | some (.str n) => n
  | _ => []

/-- `parse_test_section`. -/
def parse_test_section (title_line : Str) (s : Str) : Except Str Val :=
  let name := match reMatch0 titleM title_line with
    | some g => pyStrip g
    | none => str "Unknown"
  let descRes := extract_between s boundaryM [platLineStartM, hash2SpM, hash4SpM]
  let description := pyStrip (descRes.1.getD [])
  let supported_platforms := parse_supported_platforms s
  let auto_guid := parse_auto_generated_guid s
  let input_arguments := parse_inputs_table s
  match parse_executor_block s with
  | .error e => .error e
  | .ok (executor, _) =>
    let depRes := parse_dependencies s (execNameOf executor)
    .ok (.obj
      ([(str "name", .str name),
        (str "description", .str description),
        (str "supported_platforms", .list (supported_platforms.map Val.str)),
        (str "executor", executor),
        (str "input_arguments", argsVal input_arguments)]
       ++ (match depRes.2 with
           | [] => []
           | _ => [(str "dependencies", .list depRes.2)])
       ++ (match depRes.1 with
           | some d => if d ≠ [] then [(str "dependency_executor_name", .str d)] else []
           | none => [])
       ++ (match auto_guid with
           | some g => if g ≠ [] then [(str "auto_generated_guid", .str g)] else []
           | none => [])))

/-- The list comprehension over sections in `parse_markdown_to_technique`:
sequential, propagating the first raised error. -/
def mapExcept {α β : Type} (f : α → Except Str β) : List α → Except Str (List β)
  | [] => .ok []
  | a :: l =>
    match f a with
    | .error e => .error e
    | .ok b =>
      match mapExcept f l with
      | .error e => .error e
      | .ok bs => .ok (b :: bs)

/-- `parse_markdown_to_technique`. -/
def parse_markdown_to_technique (md : Str) : Except Str Val :=
  match parse_technique_header md with
  | .error e => .error e
  | .ok hd =>
    match mapExcept (fun ts => parse_test_section ts.1 ts.2) (split_atomic_tests_sections md) with
    | .error e => .error e
    | .ok tests =>
      .ok (.obj [(str "attack_technique", .str hd.1),
                 (str "display_name", .str hd.2),
                 (str "atomic_tests", .list tests)])

/-!  `json_to_md.py`, function by function.  The renderer consumes the JSON
form of a technique; string-typed reads (`obj.get(k, "")`) are modelled by
projections defaulting to the empty string (a non-string value there is
outside the data model and would crash the Python renderer). -/

/-- `obj.get(k, "")` where a string is expected. -/
def getStr (v : Val) (k : Str) : Str :=
  match v.get k with
  | some (.str s) => s
  | _ => []

/-- `obj.get(k)` where an optional string is expected. -/
def getStrOpt (v : Val) (k : Str) : Option Str :=
  match v.get k with
  | some (.str s) => some s
  | _ => none

/-- Python truthiness of a possibly-missing value, for the shapes that occur. -/
def pyTruthy : Option Val → Bool
  | none => false
  | some .null => false
  | some (.bool b) => b
  | some (.str s) => ¬ s.isEmpty
  | some (.list xs) => ¬ xs.isEmpty
  | some (.obj f) => ¬ f.isEmpty

/-- `get_language`. -/
def get_language (executor_name : Str) : Str :=
  if executor_name = str "command_prompt" then str "cmd"
  else if executor_name = str "manual" then []
  else executor_name

/-- `format_supported_platforms`. -/
def format_supported_platforms (platforms : List Str) : Str :=
  List.intercalate (str ", ")
    (platforms.map fun p => if p = str "macos" then str "macOS" else pyCapitalize p)

/-- The punctuation set removed by `slugify_anchor`. -/
def isSlugPunct (c : Char) : Bool :=
  c == '`' || c == '~' || c == '!' || c == '@' || c == '#' || c == '$' || c == '%' ||
  c == '^' || c == '&' || c == '*' || c == '(' || c == ')' || c == '+' || c == '=' ||
  c == '<' || c == '>' || c == '?' || c == ',' || c == '.' || c == '/' || c == ':' ||
  c == ';' || c == '"' || c == '\'' || c == '|' || c == '\x7b' || c == '\x7d' ||
  c == '[' || c == ']' || c == '\\' || c == '–' || c == '—'

/-- `slugify_anchor`: lowercase, spaces to hyphens, strip the punctuation set. -/
def slugify_anchor (title : Str) : Str :=
  ((pyLower title).map fun c => if c == ' ' then '-' else c).filter fun c => ¬ isSlugPunct c

/-- `escape_table_cell`: backslashes become `&#92;`; `None` becomes the empty
string. -/
def escape_table_cell : Option Str → Str
  | none => []
  | some s => s.flatMap fun c => if c == '\\' then str "&#92;" else [c]

/-- `render_inputs_table`. -/
def render_inputs_table (input_arguments : Option Val) : Str :=
  if ¬ pyTruthy input_arguments then []
  else
    match input_arguments with
    | some (.list args) =>
      let lines :=
        [str "#### Inputs:",
         str "| Name | Description | Type | Default Value |",
         str "|------|-------------|------|---------------|"] ++
        args.map (fun arg =>
          let name := escape_table_cell (getStrOpt arg (str "arg_name"))
          let desc := escape_table_cell (getStrOpt arg (str "description"))
          let typ := escape_table_cell (getStrOpt arg (str "type"))
          let dflt := escape_table_cell (getStrOpt arg (str "default"))
          str "| " ++ name ++ str " | " ++ desc ++ str " | " ++ typ ++
            str " | " ++ dflt ++ str "|")
      List.intercalate (str "\n") lines ++ str "\n"
    | _ => []

/-- `render_executor_block`. -/
def render_executor_block (executor : Val) : Str :=
  let name := getStr executor (str "name")
  let elev := pyTruthy (executor.get (str "elevation_required"))
  let procedure := getStr executor (str "procedure")
  let cleanup := getStrOpt executor (str "cleanup_command")
  let parts :=
    if name = str "manual" then
      [str "#### Run it with these steps!" ++
         (if elev then str "  Elevation Required (e.g. root or admin) " else []),
       [], pyStrip procedure]
    else
      let lang := get_language name
      [str "#### Attack Commands: Run with `" ++ name ++ str "`!" ++
         (if elev then str "  Elevation Required (e.g. root or admin) " else []),
       [], str "```" ++ lang, pyStrip procedure, str "```"] ++
      (match cleanup with
       | some c =>
         if ¬ c.isEmpty then
           [[], str "#### Cleanup Commands:", str "```" ++ lang, pyStrip c, str "```"]
         else []
       | none => [])
  List.intercalate (str "\n") parts ++ str "\n"

/-- `render_dependencies`. -/
def render_dependencies (dependencies : Option Val) (executor_name : Str)
    (dep_executor_name : Option Str) : Str :=
  if ¬ pyTruthy dependencies then []
  else
    match dependencies with
    | some (.list deps) =>
      let exec_to_use :=
        match dep_executor_name with
        | some d => if d.isEmpty then executor_name else d
        | none => executor_name
      let lang := get_language exec_to_use
      let parts :=
        [str "#### Dependencies:  Run with `" ++ exec_to_use ++ str "`!"] ++
        deps.flatMap (fun dep =>
          let desc := pyStrip (getStr dep (str "description"))
          let prereq := getStr dep (str "prereq_command")
          let get_prereq := getStrOpt dep (str "get_prereq_command")
          [str "##### Description: " ++ desc,
           str "##### Check Prereq Commands:",
           str "```" ++ lang, pyStrip prereq, str "```"] ++
          (match get_prereq with
           | some g =>
             if ¬ g.isEmpty then
               [str "##### Get Prereq Commands:", str "```" ++ lang, pyStrip g, str "```"]
             else []
           | none => []))
      List.intercalate (str "\n") parts ++ str "\n"
    | _ => []

/-- Decimal digits of a number, for the `#{idx}` interpolations. -/
def natStr (n : Nat) : Str := Nat.toDigits 10 n

/-- `attack_technique.replace(".", "/")`. -/
def dotToSlash (s : Str) : Str := s.map fun c => if c == '.' then '/' else c

/-- The index entries `- [title](#anchor)` of `render_atomic_markdown`. -/
def indexLines : List Val → Nat → List Str
  | [], _ => []
  | t :: rest, idx =>
    let title := str "Atomic Test #" ++ natStr idx ++ str " - " ++ getStr t (str "name")
    (str "- [" ++ title ++ str "](#" ++ slugify_anchor title ++ str ")") ::
      indexLines rest (idx + 1)

/-- `test.get("executor") or ` the empty dict. -/
def execForRender (t : Val) : Val :=
  match t.get (str "executor") with
  | some e => if pyTruthy (some e) then e else .obj []
  | none => .obj []

/-- The per-test blocks of `render_atomic_markdown`. -/
def testBlocks : List Val → Nat → List Str
  | [], _ => []
  | t :: rest, idx =>
    let desc := pyStrip (getStr t (str "description"))
    let plats :=
      match t.get (str "supported_platforms") with
      | some (.list ps) => ps.filterMap fun p => match p with | .str s => some s | _ => none
      | _ => []
    let inputs_section := render_inputs_table (t.get (str "input_arguments"))
    let dep_block := render_dependencies (t.get (str "dependencies"))
      (getStr (execForRender t) (str "name")) (getStrOpt t (str "dependency_executor_name"))
    let block :=
      [str "<br/>", [],
       str "## Atomic Test #" ++ natStr idx ++ str " - " ++ getStr t (str "name")] ++
      (if ¬ desc.isEmpty then [desc] else []) ++
      [[], str "**Supported Platforms:** " ++ format_supported_platforms plats, []] ++
      (if pyTruthy (t.get (str "auto_generated_guid")) then
        [str "**auto_generated_guid:** " ++ getStr t (str "auto_generated_guid"), []]
       else []) ++
      (if ¬ inputs_section.isEmpty then [pyStripRight inputs_section, []] else []) ++
      [pyStripRight (render_executor_block (execForRender t)), []] ++
      (if ¬ dep_block.isEmpty then [pyStripRight dep_block, []] else []) ++
      [str "<br/>"]
    block ++ testBlocks rest (idx + 1)

/-- `render_atomic_markdown`. -/
def render_atomic_markdown (obj : Val) : Str :=
  let attack_technique := getStr obj (str "attack_technique")
  let display_name := getStr obj (str "display_name")
  let technique_desc := obj.get (str "description")
  let atomic_tests :=
    match obj.get (str "atomic_tests") with
    | some (.list ts) => ts
    | _ => []
  let out :=
    [str "# " ++ attack_technique ++ str " - " ++ display_name] ++
    (if ¬ attack_technique.isEmpty then
      [str "## [Description from ATT&CK](https://attack.mitre.org/techniques/" ++
         dotToSlash attack_technique ++ str ")", str "<blockquote>", []] ++
      (if pyTruthy technique_desc then
         [(match technique_desc with | some (.str d) => d | _ => []), []]
       else []) ++
      [str "</blockquote>"]
     else []) ++
    [[], str "## Atomic Tests", []] ++
    indexLines atomic_tests 1 ++
    [[]] ++
    testBlocks atomic_tests 1
  pyStripRight (List.intercalate (str "\n") out) ++ str "\n"

/-!  Projections used to state the claims. -/

/-- The `atomic_tests` list of a successfully parsed document. -/
def parsedAtomicTests (md : Str) : Option (List Val) :=
  match parse_markdown_to_technique md with
  | .ok v =>
    match v.get (str "atomic_tests") with
    | some (.list ts) => some ts
    | _ => none
  | .error _ => none

/-- The first parsed test of a parse result. -/
def firstTest (r : Except Str Val) : Option Val :=
  match r with
  | .ok v =>
    match v.get (str "atomic_tests") with
    | some (.list (t :: _)) => some t
    | _ => none
  | .error _ => none

/-- The executor name stored on a parsed test. -/
def testExecName (v : Val) : Str :=
  match v.get (str "executor") with
  | some e => execNameOf e
  | none => []

/-- The span of text from the `i`-th boundary match to the next one (or to the
end of the document) — the wording of claim C2. -/
def spanText (text : Str) (ms : List (Nat × Nat × Unit)) (i : Nat) : Str :=
  match ms.drop i with
  | [] => []
  | (st, _, _) :: rest =>
    let endPos :=
      match rest with
      | (st2, _, _) :: _ => st2
      | [] => text.length
    (text.drop st).take (endPos - st)

/-!  Definitions that follow the wording of the spec, for comparison with the
behaviour of the source. -/

/-- Modelled from the spec: the canonical UUID shape of 8-4-4-4-12 hexadecimal
groups, which claim C5 says the parser requires of an auto_generated_guid. -/
def isCanonicalUuid (s : Str) : Bool :=
  match (pySplit '-' s).map (fun g => (g.length, g.all isHexDigitPy)) with
  | [(8, true), (4, true), (4, true), (4, true), (12, true)] => true
  | _ => false

/-- The (name, entry) pairs of the table body rows that parse (claim C10). -/
def parsedRows (lines : List Str) : List (Str × ArgEntry) :=
  lines.filterMap parseRow

/-- The entry contributed by the last row bearing a given name (claim C10):
scanning the parsed rows from the end, the first one whose name matches. -/
def lastEntryFor (lines : List Str) (k : Str) : Option ArgEntry :=
  (((parsedRows lines).reverse).find? fun nv => nv.1 == k).map fun nv => nv.2

/-- The dependency-executor override rule as amended in claim C8: the trimmed
printed name, when it is non-empty and differs from the test executor name. -/
def depOverrideSpec (s : Str) (execName : Str) : Option Val :=
  match reSearch depHeadM s with
  | none => none
  | some m =>
    let p := pyStrip m.2.2
    if p = execName then none
    else if p = [] then none
    else some (.str p)

/-!  Concrete documents and values instantiating the claims. -/

/-- The executor of the round-trip input: the spec's (post-processed) executor
shape, carrying `procedure`. -/
def c1Texec : Val :=
  .obj [(str "name", .str (str "bash")),
        (str "elevation_required", .bool false),
        (str "procedure", .str (str "ls"))]

/-- A minimal well-formed technique in the shape §3 of the spec describes
(string fields, list-form `input_arguments`, a command executor). -/
def c1T : Val :=
  .obj [(str "attack_technique", .str (str "T1059")),
        (str "display_name", .str (str "N")),
        (str "atomic_tests", .list [.obj [
          (str "name", .str (str "A")),
          (str "description", .str []),
          (str "supported_platforms", .list [.str (str "linux")]),
          (str "executor", c1Texec),
          (str "input_arguments", .list [])]])]

/-- The executor of the first test of `Parse(Render(c1T))`. -/
def c1ParsedExec : Option Val :=
  (firstTest (parse_markdown_to_technique (render_atomic_markdown c1T))).bind
    fun t => t.get (str "executor")

/-- A document with two atomic-test sections. -/
def c2doc : Str :=
  str "# T1059 - Two\n## Atomic Test #1 - Alpha\n#### Attack Commands: Run with `bash`!\n```bash\na\n```\n## Atomic Test #2 - Beta\n#### Run it with these steps!\ndo b\n"

/-- The parsed tests of `c2doc`. -/
def c2tests : List Val := (parsedAtomicTests c2doc).getD []

/-- A section whose cleanup block opens a fence that is never closed. -/
def c3sec : Str :=
  str "## Atomic Test #1 - A\n**Supported Platforms:** Linux\n#### Attack Commands: Run with `bash`!\n```bash\nls\n```\n#### Cleanup Commands:\n```bash\nrm x\nno closing fence"

def c3title : Str := str "## Atomic Test #1 - A"

/-- A section whose attack-command fence is never closed. -/
def c3wsec : Str :=
  str "## Atomic Test #2 - B\n#### Attack Commands: Run with `bash`!\n```bash\nls\nnothing closes this"

def c3wtitle : Str := str "## Atomic Test #2 - B"

/-- A section with neither executor heading. -/
def c4sec : Str := str "## Atomic Test #1 - X\njust text\n"

def c4title : Str := str "## Atomic Test #1 - X"

/-- 36 hyphens: matched by the guid pattern, but not a canonical UUID. -/
def c5hyph : Str := List.replicate 36 '-'

/-- A manual-executor section carrying the 36-hyphen "guid". -/
def c5sec : Str :=
  str "## Atomic Test #1 - G\n**auto_generated_guid:** ------------------------------------\n#### Run it with these steps!\nstep\n"

def c5title : Str := str "## Atomic Test #1 - G"

/-- A line carrying a canonically shaped guid. -/
def c5wsec : Str := str "**auto_generated_guid:** 01234567-89ab-cdef-0123-456789abcdef\n"

def c5uuid : Str := str "01234567-89ab-cdef-0123-456789abcdef"

/-- A section with a `cmd` command heading and a `whoami` block. -/
def c6sec : Str :=
  str "## Atomic Test #1 - A\n#### Attack Commands: Run with `cmd`!\n```cmd\nwhoami\n```\n"

/-- The spec's scenario row for the Inputs table. -/
def c7row : Str := str "| size | File size | string | 100MB|"

/-- A manual section whose Dependencies heading prints a blank executor name
(a single space between the backticks). -/
def c8sec : Str :=
  str "## Atomic Test #1 - B\n#### Run it with these steps!\nstep one\n#### Dependencies:  Run with ` `!\n##### Description: need thing\n##### Check Prereq Commands:\n```\ncheck\n```\n##### Get Prereq Commands:\n```\nget\n```\n"

def c8title : Str := str "## Atomic Test #1 - B"

/-- The same section with a genuinely different dependency executor. -/
def c8wsec : Str :=
  str "## Atomic Test #1 - B\n#### Run it with these steps!\nstep one\n#### Dependencies:  Run with `bash`!\n##### Description: need thing\n##### Check Prereq Commands:\n```\ncheck\n```\n"

/-- The parsed test of `c8wsec` (instantiating amended claim C8). -/
def c8wParsed : Val :=
  (parse_test_section c8title c8wsec).toOption.getD Val.null

/-- A section whose Inputs table repeats the name `size`. -/
def c10sec : Str :=
  str "## Atomic Test #1 - C\n#### Inputs:\n| Name | Description | Type | Default Value |\n|------|-------------|------|---------------|\n| size | File size | string | 100MB|\n| size | Again | path | |\n| other | x | string | a&#92;b|\n\n#### Attack Commands: Run with `powershell`!\n```powershell\nGet-Item\n```\n"

/-- The captured `body` group of the Inputs table of `c10sec`. -/
def c10body : Str :=
  match reSearch inputsTableM c10sec with
  | some m => m.2.2
  | none => []

/-- `del d[k]` on an insertion-ordered dict. -/
def pyDelete {β : Type} : List (Str × β) → Str → List (Str × β)
  | [], _ => []
  | (k, w) :: t, key => if k = key then t else (k, w) :: pyDelete t key

/-- The per-test body of `restructure_executor_in_technique`: move `steps`
(manual) or `command` (others) into a single `procedure` key.  (A non-dict
executor is skipped, as in the source.) -/
def restructExecTest (t : Val) : Val :=
  match t with
  | .obj f =>
    match pyGet f (str "executor") with
    | some (.obj ex) =>
      match pyGet ex (str "steps") with
      | some (.str st) =>
        .obj (pyUpdate f (str "executor")
          (.obj (pyDelete (pyUpdate ex (str "procedure") (.str st)) (str "steps"))))
      | _ =>
        match pyGet ex (str "command") with
        | some (.str c) =>
          .obj (pyUpdate f (str "executor")
            (.obj (pyDelete (pyUpdate ex (str "procedure") (.str c)) (str "command"))))
        | _ => .obj (pyUpdate f (str "executor") (.obj ex))
    | _ => t
  | _ => t

/-- `restructure_executor_in_technique`. -/
def restructure_executor_in_technique (technique : Val) : Val :=
  match technique with
  | .obj fields =>
    match pyGet fields (str "atomic_tests") with
    | some (.list ts) =>
      .obj (pyUpdate fields (str "atomic_tests") (.list (ts.map restructExecTest)))
    | _ => technique
  | _ => technique

/-!  Helper lemmas about the dict operations. -/

theorem pyGet_pyUpdate_self {β : Type} (l : List (Str × β)) (k : Str) (v : β) :
    pyGet (pyUpdate l k v) k = some v := by
  induction l with
  | nil => simp [pyUpdate, pyGet]
  | cons a t ih =>
    obtain ⟨ak, av⟩ := a
    by_cases h : ak = k
    · simp [pyUpdate, pyGet, h]
    · simp [pyUpdate, pyGet, h, ih]

theorem pyGet_pyUpdate_ne {β : Type} (l : List (Str × β)) (k key : Str) (v : β)
    (h : k ≠ key) : pyGet (pyUpdate l k v) key = pyGet l key := by
  induction l with
  | nil => simp [pyUpdate, pyGet, h]
  | cons a t ih =>
    obtain ⟨ak, av⟩ := a
    by_cases h2 : ak = k
    · subst h2
      simp [pyUpdate, pyGet, h]
    · simp [pyUpdate, pyGet, h2, ih]

theorem pyUpdate_pyUpdate {β : Type} (l : List (Str × β)) (k : Str) (v w : β) :
    pyUpdate (pyUpdate l k v) k w = pyUpdate l k w := by
  induction l with
  | nil => simp [pyUpdate]
  | cons a t ih =>
    obtain ⟨ak, av⟩ := a
    by_cases h : ak = k
    · simp [pyUpdate, h]
    · simp [pyUpdate, h, ih]

theorem pyGet_append {β : Type} (l1 l2 : List (Str × β)) (k : Str) :
    pyGet (l1 ++ l2) k =
      (match pyGet l1 k with
       | some v => some v
       | none => pyGet l2 k) := by
  induction l1 with
  | nil => simp [pyGet]
  | cons a t ih =>
    obtain ⟨ak, av⟩ := a
    by_cases h : ak = k
    · simp [pyGet, h]
    · simp [pyGet, h, ih]

/-- `restructTest` is idempotent: once a test's `input_arguments` has been
reshaped into list form, reshaping again changes nothing. -/
theorem restructTest_idem (t : Val) : restructTest (restructTest t) = restructTest t := by
  match t with
  | .str _ => rfl
  | .bool _ => rfl
  | .null => rfl
  | .list _ => rfl
  | .obj f =>
    cases h : pyGet f (str "input_arguments") with
    | none => simp [restructTest, h, pyGet_pyUpdate_self]
    | some v =>
      cases v with
      | obj m => simp [restructTest, h, pyGet_pyUpdate_self]
      | null => simp [restructTest, h, pyGet_pyUpdate_self]
      | str s => simp [restructTest, h]
      | bool b => simp [restructTest, h]
      | list xs => simp [restructTest, h]

/-- Claim C9: applying the argument-reshaping post-processor
(`restructure_input_arguments_in_technique`) twice yields the same result as
applying it once — reshaping into list form is a no-op when `input_arguments`
is already a list. -/
theorem claim_c9 (technique : Val) :
    restructure_input_arguments_in_technique
        (restructure_input_arguments_in_technique technique) =
      restructure_input_arguments_in_technique technique := by
  match technique with
  | .str _ => rfl
  | .bool _ => rfl
  | .null => rfl
  | .list _ => rfl
  | .obj fields =>
    cases h : pyGet fields (str "atomic_tests") with
    | none => simp [restructure_input_arguments_in_technique, h]
    | some v =>
      cases v with
      | list ts =>
        have hmap : (ts.map restructTest).map restructTest = ts.map restructTest := by
          rw [List.map_map]
          exact List.map_congr_left fun a _ => restructTest_idem a
        simp [restructure_input_arguments_in_technique, h, pyGet_pyUpdate_self,
          pyUpdate_pyUpdate, hmap]
      | obj m => simp [restructure_input_arguments_in_technique, h]
      | str s => simp [restructure_input_arguments_in_technique, h]
      | bool b => simp [restructure_input_arguments_in_technique, h]
      | null => simp [restructure_input_arguments_in_technique, h]

/-- Claim C4: a test section containing neither the manual heading
`#### Run it with these steps!` nor a command heading
`#### Attack Commands: Run with ...!` fails to parse with the fatal
no-executor-found error. -/
theorem claim_c4 (title s : Str)
    (h1 : reSearch manualHeadM s = none)
    (h2 : reSearch cmdHeadM s = none) :
    parse_test_section title s =
      .error (str "Executor heading not found in test section.") := by
  simp [parse_test_section, parse_executor_block, h1, h2]

/-- Witness for claim C4 at a concrete section with no executor heading. -/
theorem claim_c4_witness :
    parse_test_section c4title c4sec =
      .error (str "Executor heading not found in test section.") :=
  claim_c4 c4title c4sec rfl rfl
/-- Claim C6: a command heading naming `cmd` with a following fenced block
containing `whoami` parses to an executor named `command_prompt` whose
procedure (the `command` field) is `whoami` — the backticked name is used as
the executor name, with `cmd` normalized to `command_prompt`. -/
theorem claim_c6 (s : Str) (st en : Nat) (ex : Str) (elev : Bool) (cb : CodeBlock)
    (h1 : reSearch manualHeadM s = none)
    (h2 : reSearch cmdHeadM s = some (st, en, ex, elev))
    (h3 : pyStrip ex = str "cmd")
    (h4 : parse_next_code_block en s = some cb)
    (h5 : cb.content = str "whoami") :
    ((parse_executor_block s).toOption.map fun p =>
        ((p.1).get (str "name"), (p.1).get (str "command"))) =
      some (some (.str (str "command_prompt")), some (.str (str "whoami"))) := by
  have hl : pyLower (pyStrip ex) = str "cmd" := by rw [h3]; rfl
  simp only [parse_executor_block, h1, h2, h4, hl]
  cases hc : reSearch cleanupHeadM (s.drop en) with
  | none =>
    simp +decide [Except.toOption, Val.get, pyGet, h5]
  | some m =>
    obtain ⟨cst, cen, u⟩ := m
    cases hcb : parse_next_code_block (en + cst) s with
    | none => simp +decide [Except.toOption, Val.get, pyGet, h5, hcb]
    | some cb2 =>
      by_cases hne : cb2.content = []
      · simp +decide [Except.toOption, Val.get, pyGet, h5, hcb, hne]
      · simp +decide [Except.toOption, Val.get, pyGet, h5, hcb, hne]

/-- Witness for claim C6 at a concrete section. -/
theorem claim_c6_witness :
    ((parse_executor_block c6sec).toOption.map fun p =>
        ((p.1).get (str "name"), (p.1).get (str "command"))) =
      some (some (.str (str "command_prompt")), some (.str (str "whoami"))) :=
  claim_c6 c6sec 22 59 (str "cmd") false ⟨str "cmd", str "whoami"⟩ rfl rfl rfl rfl rfl

/-- Claim C3 (amended): an unterminated fence is fatal exactly when it is the
attack-command block: with the command heading present, a fence opened after
it with no later closing line makes the test parse fail with the fatal
missing-code-block error.  (Unterminated fences in the cleanup or dependency
prereq blocks are tolerated — see the counterexample.) -/
theorem claim_c3 (title s : Str) (st en : Nat) (ex : Str) (elev : Bool)
    (fst fen : Nat) (lang : Str)
    (h1 : reSearch manualHeadM s = none)
    (h2 : reSearch cmdHeadM s = some (st, en, ex, elev))
    (h3 : searchAny fenceStartM (s.drop en) = some (fst, fen, lang))
    (h4 : reSearch fenceEndM (s.drop (en + fen)) = none) :
    parse_test_section title s =
      .error (str "Command code block not found after executor heading.") := by
  have hn : parse_next_code_block en s = none := by
    simp [parse_next_code_block, h3, h4]
  simp [parse_test_section, parse_executor_block, h1, h2, hn]

/-- Counterexample to claim C3 as stated: in `c3sec` the cleanup block opens a
fence at index 130 whose content no later line closes, yet the test parses
successfully (the unterminated cleanup fence is silently dropped). -/
theorem claim_c3_counterexample :
    searchAny fenceStartM (c3sec.drop 130) = some (0, 8, str "bash") ∧
    reSearch fenceEndM (c3sec.drop 138) = none ∧
    (parse_test_section c3title c3sec).toOption.isSome = true :=
  ⟨rfl, rfl, rfl⟩

/-- Witness for (amended) claim C3 at a concrete section whose attack-command
fence is never closed. -/
theorem claim_c3_witness :
    parse_test_section c3wtitle c3wsec =
      .error (str "Command code block not found after executor heading.") :=
  claim_c3 c3wtitle c3wsec 22 60 (str "bash") false 1 9 (str "bash") rfl rfl rfl rfl

/-!  Lemmas tracing a search result back to the matcher that produced it. -/

theorem ifSome {α : Type} {b : Bool} {x : Option α} {y : α}
    (h : (if b then x else none) = some y) : x = some y := by
  cases b with
  | false => simp at h
  | true => simpa using h

theorem runFirst_some_mem {γ : Type} {m : M γ} {s : Str} {a : γ} {k : Nat}
    (h : runFirst m s = some (a, k)) : ∃ r, (a, r) ∈ m s := by
  unfold runFirst at h
  cases hm : m s with
  | nil => rw [hm] at h; exact absurd h (by simp)
  | cons x t =>
    rw [hm] at h
    obtain ⟨a1, r1⟩ := x
    simp at h
    refine ⟨r1, ?_⟩
    rw [← h.1]
    exact List.mem_cons_self _ _

theorem searchLS_some_mem {γ : Type} (m : M γ) :
    ∀ (s : Str) (atLS : Bool) (i st en : Nat) (a : γ),
      searchLS m atLS i s = some (st, en, a) → ∃ su r, (a, r) ∈ m su := by
  intro s
  induction s with
  | nil =>
    intro atLS i st en a h
    rw [searchLS] at h
    cases hs : (if atLS then runFirst m ([] : Str) else none) with
    | none => rw [hs] at h; exact absurd h (by simp)
    | some x =>
      rw [hs] at h
      obtain ⟨a1, k1⟩ := x
      simp at h
      obtain ⟨r, hr⟩ := runFirst_some_mem (ifSome hs)
      exact ⟨[], r, h.2.2 ▸ hr⟩
  | cons c t ih =>
    intro atLS i st en a h
    rw [searchLS] at h
    cases hs : (if atLS then runFirst m (c :: t) else none) with
    | none =>
      rw [hs] at h
      exact ih (c == '\n') (i + 1) st en a h
    | some x =>
      rw [hs] at h
      obtain ⟨a1, k1⟩ := x
      simp at h
      obtain ⟨r, hr⟩ := runFirst_some_mem (ifSome hs)
      exact ⟨c :: t, r, h.2.2 ▸ hr⟩

theorem mem_mBind {α β : Type} {p : M α} {f : α → M β} {s : Str} {y : β × Str}
    (h : y ∈ mBind p f s) : ∃ x ∈ p s, y ∈ f x.1 x.2 := by
  simpa [mBind, List.mem_flatMap] using h

theorem mem_mCount {n : Nat} {p : Char → Bool} {s : Str} {v r : Str}
    (h : (v, r) ∈ mCount n p s) : v.length = n ∧ v.all p = true := by
  simp only [mCount] at h
  split at h
  case isTrue hc =>
    simp only [List.mem_singleton, Prod.mk.injEq] at h
    obtain ⟨hv, _⟩ := h
    subst hv
    simp only [Bool.and_eq_true, beq_iff_eq] at hc
    exact hc
  case isFalse => simp at h

/-- Any value captured by the guid matcher is 36 characters drawn from
`[0-9a-fA-F-]`. -/
theorem mem_guidM {su r : Str} {v : Str} (h : (v, r) ∈ guidM su) :
    v.length = 36 ∧ v.all isHexDash = true := by
  unfold guidM at h
  obtain ⟨x1, _, h⟩ := mem_mBind h
  obtain ⟨x2, _, h⟩ := mem_mBind h
  obtain ⟨x3, hx3, h⟩ := mem_mBind h
  obtain ⟨x4, _, h⟩ := mem_mBind h
  obtain ⟨x5, _, h⟩ := mem_mBind h
  simp only [mPure, List.mem_singleton, Prod.mk.injEq] at h
  obtain ⟨g, r3⟩ := x3
  have := mem_mCount hx3
  rw [h.1]
  exact this

/-- Claim C5 (amended): an `**auto_generated_guid:**` value is recognized and
stored exactly when it is 36 characters of hexadecimal digits and hyphens;
the canonical 8-4-4-4-12 UUID grouping is not enforced.  Here: whenever the
parser recognizes a value, that value is 36 hex-or-hyphen characters. -/
theorem claim_c5 (s v : Str) (h : parse_auto_generated_guid s = some v) :
    v.length = 36 ∧ v.all isHexDash = true := by
  unfold parse_auto_generated_guid at h
  cases hg : reSearch guidM s with
  | none => rw [hg] at h; simp at h
  | some m =>
    obtain ⟨st, en, g⟩ := m
    rw [hg] at h
    simp at h
    obtain ⟨su, r, hmem⟩ := searchLS_some_mem guidM s true 0 st en g hg
    exact h ▸ mem_guidM hmem

/-- Counterexample to claim C5 as stated: a value of 36 hyphens is not of the
canonical 8-4-4-4-12 UUID shape, yet the parser recognizes it and stores it
on the parsed test. -/
theorem claim_c5_counterexample :
    parse_auto_generated_guid c5sec = some c5hyph ∧
    isCanonicalUuid c5hyph = false ∧
    ((parse_test_section c5title c5sec).toOption.bind
      fun v => v.get (str "auto_generated_guid")) = some (.str c5hyph) :=
  ⟨rfl, rfl, rfl⟩

/-- Witness for (amended) claim C5 at a canonically shaped guid. -/
theorem claim_c5_witness :
    c5uuid.length = 36 ∧ c5uuid.all isHexDash = true :=
  claim_c5 c5wsec c5uuid rfl

/-- `unescape` yields the empty string only on the empty string (every step
of the decoder emits at least one character). -/
theorem unescape_nil_iff (s : Str) : unescape s = [] ↔ s = [] := by
  constructor
  · intro h
    cases s with
    | nil => rfl
    | cons c t =>
      exfalso
      have hne : unescapeGo (t.length + 1) (c :: t) ≠ [] := by
        rw [unescapeGo.eq_def]
        split <;> (try split) <;> simp_all
      exact hne (by simpa [unescape] using h)
  · intro h
    subst h
    rfl

/-- Claim C7: in a well-formed Inputs-table data row, an empty fourth
(default) cell parses to the absence of a default value, while a non-empty
default cell is kept — HTML-decoded — as the default. -/
theorem claim_c7 (line : Str) (n d t df : Str) (rest : List Str)
    (h1 : pyStartsWith (str "|") (pyStrip line) = true)
    (h2 : rowCells line = n :: d :: t :: df :: rest) :
    (df = [] →
      parseRow line = some (unescape n, ⟨unescape d, unescape t, none⟩)) ∧
    (df ≠ [] →
      parseRow line = some (unescape n, ⟨unescape d, unescape t, some (unescape df)⟩)) := by
  constructor
  · intro hdf
    subst hdf
    simp [parseRow, h1, h2, unescape, unescapeGo]
  · intro hdf
    have hne : unescape df ≠ [] := fun hh => hdf ((unescape_nil_iff df).mp hh)
    simp [parseRow, h1, h2, hne]

/-- Witness for claim C7 at the spec's scenario row. -/
theorem claim_c7_witness :
    parseRow c7row =
      some (str "size", ⟨str "File size", str "string", some (str "100MB")⟩) :=
  (claim_c7 c7row (str "size") (str "File size") (str "string") (str "100MB") []
    rfl rfl).2 (by decide)

/-!  Lemmas about the section splitter and the per-section map. -/

theorem spanText_cons (text : Str) (m : Nat × Nat × Unit)
    (rest : List (Nat × Nat × Unit)) (j : Nat) :
    spanText text (m :: rest) (j + 1) = spanText text rest j := rfl

theorem sectionsOf_length (text : Str) (ms : List (Nat × Nat × Unit)) :
    (sectionsOf text ms).length = ms.length := by
  induction ms with
  | nil => rfl
  | cons m rest ih =>
    obtain ⟨st, en, u⟩ := m
    simp [sectionsOf, ih]

theorem sectionsOf_get (text : Str) :
    ∀ (ms : List (Nat × Nat × Unit)) (i : Nat) (h : i < (sectionsOf text ms).length),
      (sectionsOf text ms).get ⟨i, h⟩ =
        (firstLine (spanText text ms i), spanText text ms i) := by
  intro ms
  induction ms with
  | nil => intro i h; simp [sectionsOf] at h
  | cons m rest ih =>
    intro i h
    obtain ⟨st, en, u⟩ := m
    cases i with
    | zero => rfl
    | succ j =>
      have h' : j < (sectionsOf text rest).length := by
        simp [sectionsOf] at h
        omega
      simpa [sectionsOf, spanText_cons] using ih j h'

theorem mapExcept_ok_length {α β : Type} (f : α → Except Str β) :
    ∀ (l : List α) (bs : List β), mapExcept f l = .ok bs → bs.length = l.length := by
  intro l
  induction l with
  | nil =>
    intro bs h
    simp [mapExcept] at h
    subst h
    rfl
  | cons a t ih =>
    intro bs h
    simp only [mapExcept] at h
    cases hf : f a with
    | error e => rw [hf] at h; simp at h
    | ok b =>
      rw [hf] at h
      cases hm : mapExcept f t with
      | error e => rw [hm] at h; simp at h
      | ok bs2 =>
        rw [hm] at h
        simp at h
        subst h
        simp [ih bs2 hm]

theorem mapExcept_ok_get {α β : Type} (f : α → Except Str β) :
    ∀ (l : List α) (bs : List β), mapExcept f l = .ok bs →
      ∀ (i : Nat) (h1 : i < l.length) (h2 : i < bs.length),
        f (l.get ⟨i, h1⟩) = .ok (bs.get ⟨i, h2⟩) := by
  intro l
  induction l with
  | nil => intro bs h i h1 h2; simp at h1
  | cons a t ih =>
    intro bs h i h1 h2
    simp only [mapExcept] at h
    cases hf : f a with
    | error e => rw [hf] at h; simp at h
    | ok b =>
      rw [hf] at h
      cases hm : mapExcept f t with
      | error e => rw [hm] at h; simp at h
      | ok bs2 =>
        rw [hm] at h
        simp at h
        subst h
        cases i with
        | zero => simpa using hf
        | succ j => simpa using ih bs2 hm j (by simpa using h1) (by simpa using h2)

/-- Claim C2: a successfully parsed document has exactly one test per
boundary line, the `i`-th test is parsed from the span running from the
`i`-th boundary to the next one (or the end of the document), and a document
with a well-formed header but zero boundaries parses to an empty
`atomic_tests` list rather than an error. -/
theorem claim_c2 (md : Str) :
    (∀ ts, parsedAtomicTests md = some ts →
      ts.length = (finditer boundaryM md).length ∧
      ∀ (i : Nat) (h1 : i < (split_atomic_tests_sections md).length)
          (h2 : i < ts.length),
        ((split_atomic_tests_sections md).get ⟨i, h1⟩).2 =
          spanText md (finditer boundaryM md) i ∧
        parse_test_section ((split_atomic_tests_sections md).get ⟨i, h1⟩).1
          ((split_atomic_tests_sections md).get ⟨i, h1⟩).2 = .ok (ts.get ⟨i, h2⟩)) ∧
    (∀ hd, parse_technique_header md = .ok hd → finditer boundaryM md = [] →
      parsedAtomicTests md = some []) := by
  constructor
  · intro ts hts
    unfold parsedAtomicTests at hts
    cases hp : parse_markdown_to_technique md with
    | error e => rw [hp] at hts; simp at hts
    | ok v =>
      rw [hp] at hts
      unfold parse_markdown_to_technique at hp
      cases hh : parse_technique_header md with
      | error e => rw [hh] at hp; simp at hp
      | ok hd =>
        rw [hh] at hp
        cases hm : mapExcept (fun p => parse_test_section p.1 p.2)
            (split_atomic_tests_sections md) with
        | error e => rw [hm] at hp; simp at hp
        | ok tests =>
          rw [hm] at hp
          simp at hp
          have hts2 : ts = tests := by
            rw [← hp] at hts
            simp +decide [Val.get, pyGet] at hts
            exact hts.symm
          subst hts2
          constructor
          · rw [mapExcept_ok_length _ _ _ hm]
            rw [show split_atomic_tests_sections md
                = sectionsOf md (finditer boundaryM md) from rfl]
            exact sectionsOf_length md (finditer boundaryM md)
          · intro i h1 h2
            constructor
            · have hg := sectionsOf_get md (finditer boundaryM md) i h1
              exact congrArg Prod.snd hg
            · exact mapExcept_ok_get _ _ _ hm i h1 h2
  · intro hd hh hz
    unfold parsedAtomicTests parse_markdown_to_technique
    rw [hh]
    rw [show split_atomic_tests_sections md
        = sectionsOf md (finditer boundaryM md) from rfl, hz]
    simp +decide [sectionsOf, mapExcept, Val.get, pyGet]

/-- Witness for claim C2 at a two-test document. -/
theorem claim_c2_witness :
    parsedAtomicTests c2doc = some c2tests ∧
    c2tests.length = (finditer boundaryM c2doc).length :=
  ⟨rfl, ((claim_c2 c2doc).1 c2tests rfl).1⟩

/-!  Lemmas about the Inputs-table accumulation. -/

theorem pyUpdate_keys {β : Type} [Inhabited β] (l : List (Str × β)) (k : Str) (v : β) :
    (pyUpdate l k v).map Prod.fst =
      if k ∈ l.map Prod.fst then l.map Prod.fst else l.map Prod.fst ++ [k] := by
  induction l with
  | nil => simp [pyUpdate]
  | cons a t ih =>
    obtain ⟨ak, av⟩ := a
    by_cases h : ak = k
    · subst h
      simp [pyUpdate]
    · have h2 : ¬ k = ak := fun hk => h hk.symm
      by_cases hm : k ∈ t.map Prod.fst
      · simp [pyUpdate, h, ih, hm, h2]
      · simp [pyUpdate, h, ih, hm, h2]

theorem foldRows_nodup :
    ∀ (lines : List Str) (acc : List (Str × ArgEntry)),
      (acc.map Prod.fst).Nodup →
      ((lines.foldl (fun acc line =>
        match parseRow line with
        | none => acc
        | some (n, e) => pyUpdate acc n e) acc).map Prod.fst).Nodup := by
  intro lines
  induction lines with
  | nil => intro acc h; simpa using h
  | cons r rows ih =>
    intro acc h
    simp only [List.foldl_cons]
    cases hr : parseRow r with
    | none => exact ih acc h
    | some ne =>
      obtain ⟨n, e⟩ := ne
      refine ih (pyUpdate acc n e) ?_
      rw [pyUpdate_keys]
      by_cases hm : n ∈ acc.map Prod.fst
      · simpa [hm] using h
      · simp only [hm, if_false]
        simp [List.nodup_append, h, hm]

theorem foldRows_get :
    ∀ (lines : List Str) (acc : List (Str × ArgEntry)) (k : Str),
      pyGet (lines.foldl (fun acc line =>
        match parseRow line with
        | none => acc
        | some (n, e) => pyUpdate acc n e) acc) k =
      (match lastEntryFor lines k with
       | some e => some e
       | none => pyGet acc k) := by
  intro lines
  induction lines with
  | nil => intro acc k; simp [lastEntryFor, parsedRows]
  | cons r rows ih =>
    intro acc k
    simp only [List.foldl_cons]
    cases hr : parseRow r with
    | none =>
      rw [ih]
      simp [lastEntryFor, parsedRows, hr]
    | some ne =>
      obtain ⟨n, e⟩ := ne
      rw [ih]
      have hrev : (parsedRows (r :: rows)).reverse
          = (parsedRows rows).reverse ++ [(n, e)] := by
        simp [parsedRows, hr]
      cases hl : lastEntryFor rows k with
      | some e2 =>
        have : lastEntryFor (r :: rows) k = some e2 := by
          unfold lastEntryFor at hl ⊢
          rw [hrev, List.find?_append]
          cases hf : ((parsedRows rows).reverse).find? fun nv => nv.1 == k with
          | none => rw [hf] at hl; simp at hl
          | some x =>
            rw [hf] at hl
            simpa using hl
        simp [this]
      | none =>
        have hf : ((parsedRows rows).reverse).find? (fun nv => nv.1 == k) = none := by
          unfold lastEntryFor at hl
          cases hf2 : ((parsedRows rows).reverse).find? fun nv => nv.1 == k with
          | none => rfl
          | some x => rw [hf2] at hl; simp at hl
        have : lastEntryFor (r :: rows) k =
            if n = k then some e else none := by
          unfold lastEntryFor
          rw [hrev, List.find?_append, hf]
          by_cases hk : n = k
          · subst hk
            simp [List.find?]
          · have hb : (n == k) = false := by simpa using hk
            simp [List.find?, hb, hk]
        rw [this]
        by_cases hk : n = k
        · subst hk
          simp [pyGet_pyUpdate_self]
        · have : pyGet (pyUpdate acc n e) k = pyGet acc k :=
            pyGet_pyUpdate_ne acc n k e hk
          simp [hk, this]

/-- Claim C10: when an Inputs table is recognized, the parsed mapping has one
entry per distinct argument name (no duplicate keys), and the entry stored
for a name is the one contributed by the last table row bearing that name —
later rows silently overwrite earlier ones. -/
theorem claim_c10 (s : Str) (h0 : Nat × Nat × Unit) (st en : Nat) (body : Str)
    (hh : reSearch inputsHeadM s = some h0)
    (ht : reSearch inputsTableM s = some (st, en, body)) :
    parse_inputs_table s = foldRows (pySplitLines body) ∧
    ((foldRows (pySplitLines body)).map Prod.fst).Nodup ∧
    ∀ k, pyGet (foldRows (pySplitLines body)) k = lastEntryFor (pySplitLines body) k := by
  refine ⟨?_, ?_, ?_⟩
  · simp [parse_inputs_table, hh, ht]
  · exact foldRows_nodup _ _ (by simp)
  · intro k
    have h := foldRows_get (pySplitLines body) [] k
    rw [show foldRows (pySplitLines body) = (pySplitLines body).foldl (fun acc line =>
        match parseRow line with
        | none => acc
        | some (n, e) => pyUpdate acc n e) [] from rfl, h]
    cases hl : lastEntryFor (pySplitLines body) k <;> simp [pyGet]

/-- Witness for claim C10 at a table repeating the name `size`: the stored
entry is the one of the last `size` row. -/
theorem claim_c10_witness :
    pyGet (parse_inputs_table c10sec) (str "size") =
      lastEntryFor (pySplitLines c10body) (str "size") ∧
    lastEntryFor (pySplitLines c10body) (str "size") =
      some ⟨str "Again", str "path", none⟩ := by
  have h := claim_c10 c10sec (22, 34, ()) 22 223 c10body rfl rfl
  refine ⟨?_, rfl⟩
  rw [h.1]
  exact h.2.2 (str "size")

/-- Counterexample to claim C8 as stated: in `c8sec` the Dependencies heading
names (in backticks) a blank executor — whose trimmed value is empty and so
differs from the test's executor name `manual` — yet the parsed test carries
no `dependency_executor_name` field. -/
theorem claim_c8_counterexample :
    (reSearch depHeadM c8sec).map (fun m => pyStrip m.2.2) = some [] ∧
    ((parse_test_section c8title c8sec).toOption.bind
      fun v => v.get (str "executor")).map execNameOf = some (str "manual") ∧
    ((parse_test_section c8title c8sec).toOption.bind
      fun v => v.get (str "dependency_executor_name")) = none :=
  ⟨rfl, rfl, rfl⟩

theorem pyGet_segB (ds : List Val) (k : Str) (h : ¬ str "dependencies" = k) :
    pyGet (match ds with
      | [] => ([] : List (Str × Val))
      | _ => [(str "dependencies", Val.list ds)]) k = none := by
  cases ds <;> simp [pyGet, h]

/-- Claim C8 (amended): a parsed test carries `dependency_executor_name`
exactly when the trimmed printed name of the Dependencies heading is
non-empty and differs from the test's own executor name; when it is
identical — or empty after trimming — the field is absent. -/
theorem claim_c8 (title s : Str) (executor : Val) (li : Int) (v : Val)
    (hx : parse_executor_block s = .ok (executor, li))
    (hv : parse_test_section title s = .ok v) :
    v.get (str "dependency_executor_name") =
      depOverrideSpec s (execNameOf executor) := by
  unfold parse_test_section at hv
  rw [hx] at hv
  simp only [Except.ok.injEq] at hv
  subst hv
  unfold depOverrideSpec parse_dependencies
  cases hd : reSearch depHeadM s with
  | none =>
    simp +decide [hd, Val.get, pyGet_append, pyGet, pyGet_segB]
    cases hg : parse_auto_generated_guid s with
    | none => simp [pyGet]
    | some gg => by_cases hgg : gg = [] <;> simp +decide [hgg, pyGet]
  | some m =>
    obtain ⟨dst, den, raw⟩ := m
    by_cases hpe : pyStrip raw = execNameOf executor
    · simp +decide [hd, hpe, Val.get, pyGet_append, pyGet, pyGet_segB]
      cases hg : parse_auto_generated_guid s with
      | none => simp [pyGet]
      | some gg => by_cases hgg : gg = [] <;> simp +decide [hgg, pyGet]
    · by_cases hpn : pyStrip raw = []
      · have he : ¬ execNameOf executor = [] := fun h2 => hpe (hpn.trans h2.symm)
        simp +decide [hd, hpe, hpn, he, Val.get, pyGet_append, pyGet, pyGet_segB]
        cases hg : parse_auto_generated_guid s with
        | none => simp [pyGet]
        | some gg => by_cases hgg : gg = [] <;> simp +decide [hgg, pyGet]
      · simp +decide [hd, hpe, hpn, Val.get, pyGet_append, pyGet, pyGet_segB]

/-- Witness for (amended) claim C8 at a section whose Dependencies heading
names `bash` while the test executor is `manual`. -/
theorem claim_c8_witness :
    c8wParsed.get (str "dependency_executor_name") = some (.str (str "bash")) := by
  have hx : parse_executor_block c8wsec =
      .ok (.obj [(str "name", .str (str "manual")),
                 (str "elevation_required", .bool false),
                 (str "steps", .str (str "step one"))], (61 : Int)) := rfl
  have hv : parse_test_section c8title c8wsec = .ok c8wParsed := rfl
  have h := claim_c8 c8title c8wsec _ _ c8wParsed hx hv
  rw [h]
  rfl

/-- Claim C1: the round-trip law fails on this code.  For the well-formed
technique `c1T` — whose executor carries the spec's `procedure` field and
whose `input_arguments` is the list form the renderer consumes — re-parsing
the rendered document succeeds but stores the procedure under a `command` key
(no `procedure` key at all) and stores `input_arguments` as a mapping rather
than a list, so `Parse(Render(T))` is not structurally equal to `T` up to
platform casing, whitespace trimming and entity round-tripping. -/
theorem claim_c1 :
    c1ParsedExec.bind (fun e => e.get (str "command")) = some (.str (str "ls")) ∧
    c1ParsedExec.bind (fun e => e.get (str "procedure")) = none ∧
    c1Texec.get (str "procedure") = some (.str (str "ls")) ∧
    c1Texec.get (str "command") = none ∧
    (firstTest (parse_markdown_to_technique (render_atomic_markdown c1T))).bind
      (fun t => t.get (str "input_arguments")) = some (.obj []) ∧
    ((c1T.get (str "atomic_tests")).bind fun ts =>
      match ts with
      | .list (t :: _) => t.get (str "input_arguments")
      | _ => none) = some (.list []) :=
  ⟨rfl, rfl, rfl, rfl, rfl, rfl⟩

/-- Context for claim C1: applying the two optional post-processors to the
re-parsed document recovers `c1T` exactly — the round-trip failure of claim
C1 is precisely the post-processing the named composite omits. -/
theorem c1_postprocessed_roundtrip :
    (parse_markdown_to_technique (render_atomic_markdown c1T)).map
      (fun v => restructure_executor_in_technique
        (restructure_input_arguments_in_technique v)) = .ok c1T := rfl
